import Mathlib

/-!
Verification of the powerwall monitor collector loop
(`powerwall_monitor.py`, class `PowerwallMonitor`).

The embedding models one Python source file.  Floating-point readings from
the Reading Source are modelled as rationals; Python's `round` builtin
(round-half-to-even) is `pyRound`.  Exceptions are modelled as values:
each collaborator call either returns a value, raises an ordinary
`Exception` (caught by the `except Exception` handlers in the source), or
delivers a `KeyboardInterrupt` (which those handlers do NOT catch, since
in Python `KeyboardInterrupt` is not a subclass of `Exception`; only the
`except KeyboardInterrupt` in `run` catches it).

Each cycle consumes a `CycleF` fault-injection record and produces a trace
of observable events (`Ev`): collaborator calls, log lines (`print`s) and
the interval sleep.  `runLoop` folds `runCycle` over a finite list of
cycle inputs, stopping early exactly when a cycle breaks out of the
`while True` loop.
-/

namespace Powerwall

/-- Python's builtin `round` on a rational: round to the nearest integer,
ties to even (as used on `power['site']` etc. in `get_measurements` and on
`level()` in `get_battery_level`).  Written on the numerator/denominator
representation so that it evaluates by kernel reduction;
`pyRound_def_floor` below restates it through `Int.floor`. -/
def pyRound (q : ℚ) : ℤ :=
  if 2 * (q.num - q.num / (q.den : ℤ) * (q.den : ℤ)) < (q.den : ℤ) then
    q.num / (q.den : ℤ)
  else if (q.den : ℤ) < 2 * (q.num - q.num / (q.den : ℤ) * (q.den : ℤ)) then
    q.num / (q.den : ℤ) + 1
  else if q.num / (q.den : ℤ) % 2 = 0 then q.num / (q.den : ℤ)
  else q.num / (q.den : ℤ) + 1

/-- The dictionary returned by `self.powerwall.power()`: each of the four
keys the monitor reads may be present or absent (a missing key makes the
lookup raise `KeyError`, caught by `get_measurements`). -/
structure PowerData where
  site : Option ℚ
  battery : Option ℚ
  solar : Option ℚ
  load : Option ℚ
deriving DecidableEq, Repr

/-- The normalized measurement dict built by `get_measurements`. -/
structure Measurement where
  grid : ℤ
  battery : ℤ
  solar : ℤ
  home : ℤ
deriving DecidableEq, Repr

/-- One record handed to `write_api.write`: the "power" `Point` with the
four fields, or the "battery" `Point` with the level field. -/
inductive Series where
  | power (m : Measurement)
  | battery (level : ℤ)
deriving DecidableEq, Repr

/-- Outcome of a collaborator call: a value, an `Exception`, or a
`KeyboardInterrupt` delivered during the call. -/
inductive PollRes (α : Type) where
  | ok (a : α)
  | exc
  | kbint
deriving DecidableEq, Repr

/-- Fault injection for one cycle of the loop: what `powerwall.power()`,
`powerwall.level()` and `write_api.write` would do if called, whether a
`KeyboardInterrupt` arrives during `time.sleep`, and the cycle's wall
clock reading (`datetime.now()`). -/
structure CycleF where
  power : PollRes PowerData
  battery : PollRes ℚ
  sink : PollRes Unit
  sleepInt : Bool
  ts : ℕ
deriving DecidableEq, Repr

/-- Observable events of a cycle: collaborator calls, log lines and the
interval sleep, in program order. -/
inductive Ev where
  | powerPoll
  | batteryPoll
  | sinkWrite (recs : List Series)
  | sleep
  | logSourceErr
  | logBatteryErr
  | logSinkErr
  | logRecorded (ts : ℕ) (m : Measurement)
  | logStopping
deriving DecidableEq, Repr

/-- Result of a statement inside the loop body: a value, or an escaping
`KeyboardInterrupt` (ordinary exceptions never escape the helpers). -/
inductive Res (α : Type) where
  | val (a : α)
  | kbint
deriving DecidableEq, Repr

/-- `PowerwallMonitor.get_measurements`: call `powerwall.power()`, build
the measurement dict with each field rounded; any `Exception` (connection
fault or `KeyError` for a missing key) is caught, logged and turned into
`None`.  A `KeyboardInterrupt` escapes. -/
def get_measurements (p : PollRes PowerData) : List Ev × Res (Option Measurement) :=
  match p with
  | .ok d =>
    match d.site, d.battery, d.solar, d.load with
    | some s, some b, some so, some l =>
        ([.powerPoll], .val (some ⟨pyRound s, pyRound b, pyRound so, pyRound l⟩))
    | _, _, _, _ => ([.powerPoll, .logSourceErr], .val none)
  | .exc => ([.powerPoll, .logSourceErr], .val none)
  | .kbint => ([.powerPoll], .kbint)

/-- `PowerwallMonitor.get_battery_level`: `round(powerwall.level())`; an
`Exception` is caught, logged and turned into `None`; a
`KeyboardInterrupt` escapes. -/
def get_battery_level (b : PollRes ℚ) : List Ev × Res (Option ℤ) :=
  match b with
  | .ok q => ([.batteryPoll], .val (some (pyRound q)))
  | .exc => ([.batteryPoll, .logBatteryErr], .val none)
  | .kbint => ([.batteryPoll], .kbint)

/-- `PowerwallMonitor.write_to_influxdb`: return immediately on a falsy
argument; otherwise build the power point, poll the battery level, then
issue exactly one `write_api.write` call — with both points when the level
was obtained, with the power point alone otherwise.  A sink `Exception` is
caught and logged; a `KeyboardInterrupt` escapes. -/
def write_to_influxdb (m : Option Measurement) (c : CycleF) : List Ev × Res Unit :=
  match m with
  | none => ([], .val ())
  | some meas =>
    let bl := get_battery_level c.battery
    match bl.2 with
    | .kbint => (bl.1, .kbint)
    | .val (some lvl) =>
      match c.sink with
      | .ok _ => (bl.1 ++ [.sinkWrite [.power meas, .battery lvl]], .val ())
      | .exc => (bl.1 ++ [.sinkWrite [.power meas, .battery lvl], .logSinkErr], .val ())
      | .kbint => (bl.1 ++ [.sinkWrite [.power meas, .battery lvl]], .kbint)
    | .val none =>
      match c.sink with
      | .ok _ => (bl.1 ++ [.sinkWrite [.power meas]], .val ())
      | .exc => (bl.1 ++ [.sinkWrite [.power meas], .logSinkErr], .val ())
      | .kbint => (bl.1 ++ [.sinkWrite [.power meas]], .kbint)

/-- One iteration of the `while True` body of `PowerwallMonitor.run`:
poll measurements; if truthy, write them and log the success line; sleep.
The returned `Bool` is `true` when the loop continues to the next
iteration and `false` when it `break`s (only via the
`except KeyboardInterrupt` handler, which logs the stopping line).
Ordinary exceptions never reach the body's `except Exception` arm because
the helpers catch them. -/
def runCycle (c : CycleF) : List Ev × Bool :=
  let gm := get_measurements c.power
  match gm.2 with
  | .kbint => (gm.1 ++ [.logStopping], false)
  | .val none =>
      if c.sleepInt then (gm.1 ++ [.logStopping], false)
      else (gm.1 ++ [.sleep], true)
  | .val (some m) =>
      let w := write_to_influxdb (some m) c
      match w.2 with
      | .kbint => (gm.1 ++ w.1 ++ [.logStopping], false)
      | .val _ =>
        if c.sleepInt then (gm.1 ++ w.1 ++ [.logRecorded c.ts m, .logStopping], false)
        else (gm.1 ++ w.1 ++ [.logRecorded c.ts m, .sleep], true)

/-- `PowerwallMonitor.run` driven by a finite prefix of per-cycle fault
injections: concatenates the cycle traces, stopping as soon as a cycle
breaks.  The `Bool` is `true` when the loop terminated within the given
prefix and `false` when it is still running after consuming it. -/
def runLoop : List CycleF → List Ev × Bool
  | [] => ([], false)
  | c :: rest =>
    let r := runCycle c
    if r.2 then
      let r2 := runLoop rest
      (r.1 ++ r2.1, r2.2)
    else (r.1, true)

/-- No cancellation signal is delivered anywhere in this cycle. -/
def CycleF.noCancel (c : CycleF) : Prop :=
  c.power ≠ .kbint ∧ c.battery ≠ .kbint ∧ c.sink ≠ .kbint ∧ c.sleepInt = false

instance : DecidablePred CycleF.noCancel := fun c => by
  unfold CycleF.noCancel; infer_instance

/-- Recognize a power-poll call event. -/
def Ev.isPowerPoll : Ev → Bool
  | .powerPoll => true
  | _ => false

/-- Recognize a battery-poll call event. -/
def Ev.isBatteryPoll : Ev → Bool
  | .batteryPoll => true
  | _ => false

/-- Recognize a sink-write call event. -/
def Ev.isSinkWrite : Ev → Bool
  | .sinkWrite _ => true
  | _ => false

/-- Number of Reading Source power polls in a trace. -/
def nPolls (t : List Ev) : ℕ := t.countP Ev.isPowerPoll

/-- The record batches submitted to the sink in a trace, in order. -/
def writesOf (t : List Ev) : List (List Series) :=
  t.filterMap fun e => match e with
    | .sinkWrite r => some r
    | _ => none

/-! ### Basic facts about `pyRound` -/

/-- The numerator of a rational equals the rational times its denominator. -/
lemma num_eq_mul_den (q : ℚ) : (q.num : ℚ) = q * (q.den : ℚ) :=
  (Rat.mul_den_eq_num q).symm

/-- The integer division in `pyRound` is the floor of the rational. -/
lemma num_div_den_eq_floor (q : ℚ) : q.num / (q.den : ℤ) = ⌊q⌋ :=
  Rat.floor_def.symm

/-- `pyRound` restated through `Int.floor`: round the fractional part,
ties to even. -/
lemma pyRound_def_floor (q : ℚ) :
    pyRound q =
      if q - (⌊q⌋ : ℚ) < 1/2 then ⌊q⌋
      else if 1/2 < q - (⌊q⌋ : ℚ) then ⌊q⌋ + 1
      else if ⌊q⌋ % 2 = 0 then ⌊q⌋ else ⌊q⌋ + 1 := by
  have hden : (0 : ℚ) < (q.den : ℚ) := by
    exact_mod_cast q.pos
  have hnum := num_eq_mul_den q
  have h1 : (2 * (q.num - ⌊q⌋ * (q.den : ℤ)) < (q.den : ℤ)) ↔
      (q - (⌊q⌋ : ℚ) < 1/2) := by
    constructor
    · intro h
      have h' : ((2 * (q.num - ⌊q⌋ * (q.den : ℤ)) : ℤ) : ℚ) <
          (((q.den : ℤ)) : ℚ) := by exact_mod_cast h
      push_cast at h'
      nlinarith
    · intro h
      have hm := mul_lt_mul_of_pos_right h hden
      have h' : ((2 * (q.num - ⌊q⌋ * (q.den : ℤ)) : ℤ) : ℚ) <
          (((q.den : ℤ)) : ℚ) := by push_cast; nlinarith
      exact_mod_cast h'
  have h2 : ((q.den : ℤ) < 2 * (q.num - ⌊q⌋ * (q.den : ℤ))) ↔
      (1/2 < q - (⌊q⌋ : ℚ)) := by
    constructor
    · intro h
      have h' : (((q.den : ℤ)) : ℚ) <
          ((2 * (q.num - ⌊q⌋ * (q.den : ℤ)) : ℤ) : ℚ) := by exact_mod_cast h
      push_cast at h'
      nlinarith
    · intro h
      have hm := mul_lt_mul_of_pos_right h hden
      have h' : (((q.den : ℤ)) : ℚ) <
          ((2 * (q.num - ⌊q⌋ * (q.den : ℤ)) : ℤ) : ℚ) := by push_cast; nlinarith
      exact_mod_cast h'
  unfold pyRound
  rw [num_div_den_eq_floor]
  simp only [h1, h2]

/-- `pyRound` returns the floor or the ceiling-by-one. -/
lemma pyRound_eq_floor_or_add_one (q : ℚ) :
    pyRound q = ⌊q⌋ ∨ pyRound q = ⌊q⌋ + 1 := by
  rw [pyRound_def_floor]
  split_ifs <;> simp

/-- `pyRound` rounds to the nearest integer: the distance to the input is
at most one half. -/
lemma pyRound_nearest (q : ℚ) : |(pyRound q : ℚ) - q| ≤ 1/2 := by
  have h0 : (⌊q⌋ : ℚ) ≤ q := Int.floor_le q
  have h1 : q < (⌊q⌋ : ℚ) + 1 := Int.lt_floor_add_one q
  rw [pyRound_def_floor]
  split_ifs with ha hb hc <;> rw [abs_le] <;> constructor <;> push_cast <;>
    linarith

/-- `pyRound` of a nonnegative rational is nonnegative. -/
lemma pyRound_nonneg {q : ℚ} (h : 0 ≤ q) : 0 ≤ pyRound q := by
  have hf : 0 ≤ ⌊q⌋ := Int.floor_nonneg.mpr h
  rcases pyRound_eq_floor_or_add_one q with he | he <;> omega

/-- `pyRound` of a nonpositive rational is nonpositive. -/
lemma pyRound_nonpos {q : ℚ} (h : q ≤ 0) : pyRound q ≤ 0 := by
  have h0 : (⌊q⌋ : ℚ) ≤ q := Int.floor_le q
  have hf : ⌊q⌋ ≤ 0 := by
    have := Int.floor_le_floor (α := ℚ) h
    simpa using this
  rw [pyRound_def_floor]
  split_ifs with ha hb hc
  · exact hf
  · have : (⌊q⌋ : ℚ) < -(1/2) := by linarith
    have : ⌊q⌋ < 0 := by
      have h2 : (⌊q⌋ : ℚ) < 0 := by linarith
      exact_mod_cast h2
    omega
  · exact hf
  · have h2 : q - (⌊q⌋ : ℚ) = 1/2 := by linarith
    have : (⌊q⌋ : ℚ) ≤ -(1/2) := by linarith
    have : ⌊q⌋ < 0 := by
      have h3 : (⌊q⌋ : ℚ) < 0 := by linarith
      exact_mod_cast h3
    omega

/-! ### Structural facts about a cycle's trace -/

/-- Every cycle starts with the power poll. -/
lemma runCycle_starts_powerPoll (c : CycleF) :
    ∃ t, (runCycle c).1 = .powerPoll :: t := by
  obtain ⟨pw, bt, sk, si, ts⟩ := c
  cases pw with
  | ok d =>
    obtain ⟨s, b, so, l⟩ := d
    cases s <;> cases b <;> cases so <;> cases l <;>
      cases bt <;> cases sk <;> cases si <;>
      simp [runCycle, get_measurements, write_to_influxdb, get_battery_level]
  | exc => cases si <;> simp [runCycle, get_measurements]
  | kbint => simp [runCycle, get_measurements]

/-- Every cycle performs exactly one power poll. -/
lemma runCycle_nPolls (c : CycleF) : nPolls (runCycle c).1 = 1 := by
  obtain ⟨pw, bt, sk, si, ts⟩ := c
  cases pw with
  | ok d =>
    obtain ⟨s, b, so, l⟩ := d
    cases s <;> cases b <;> cases so <;> cases l <;>
      cases bt <;> cases sk <;> cases si <;>
      simp [runCycle, get_measurements, write_to_influxdb, get_battery_level,
        nPolls, Ev.isPowerPoll]
  | exc =>
    cases si <;> simp [runCycle, get_measurements, nPolls, Ev.isPowerPoll]
  | kbint => simp [runCycle, get_measurements, nPolls, Ev.isPowerPoll]

/-- A cycle in which no cancellation signal is delivered always continues
the loop, whatever the injected source and sink failures. -/
lemma runCycle_cont_of_noCancel {c : CycleF} (h : c.noCancel) :
    (runCycle c).2 = true := by
  obtain ⟨h1, h2, h3, h4⟩ := h
  obtain ⟨pw, bt, sk, si, ts⟩ := c
  simp only at h1 h2 h3 h4
  subst h4
  cases pw with
  | ok d =>
    obtain ⟨s, b, so, l⟩ := d
    cases s <;> cases b <;> cases so <;> cases l <;>
      cases bt <;> cases sk <;>
      simp_all [runCycle, get_measurements, write_to_influxdb, get_battery_level]
  | exc => simp [runCycle, get_measurements]
  | kbint => simp_all

/-- Unfolding the loop on a continuing first cycle: the remaining cycles
run unchanged after it. -/
lemma runLoop_cons_of_cont {c : CycleF} (cs : List CycleF)
    (h : (runCycle c).2 = true) :
    runLoop (c :: cs) = ((runCycle c).1 ++ (runLoop cs).1, (runLoop cs).2) := by
  simp [runLoop, h]

/-- Unfolding the loop on a breaking first cycle: nothing after it runs. -/
lemma runLoop_cons_of_stop {c : CycleF} (cs : List CycleF)
    (h : (runCycle c).2 = false) :
    runLoop (c :: cs) = ((runCycle c).1, true) := by
  simp [runLoop, h]

/-! ### The claims -/

/-- C1: for every sequence of consecutive cycles with any injected
combination of power-poll, battery-poll and sink-write failures, the loop
catches every per-cycle error, performs every cycle's poll and is still
running afterwards; it breaks out of `while True` only when a
cancellation signal (`KeyboardInterrupt`) is delivered in some cycle. -/
theorem c1_loop_survives_all_failures (cs : List CycleF) :
    ((∀ c ∈ cs, c.noCancel) →
      (runLoop cs).2 = false ∧ nPolls (runLoop cs).1 = cs.length) ∧
    ((runLoop cs).2 = true → ∃ c ∈ cs, ¬ c.noCancel) := by
  induction cs with
  | nil => simp [runLoop, nPolls]
  | cons c rest ih =>
    constructor
    · intro h
      have hc : c.noCancel := h c (by simp)
      have hcont := runCycle_cont_of_noCancel hc
      rw [runLoop_cons_of_cont rest hcont]
      have hrest := ih.1 (fun x hx => h x (by simp [hx]))
      refine ⟨hrest.1, ?_⟩
      simp only [nPolls, List.countP_append]
      have h1 := runCycle_nPolls c
      simp only [nPolls] at h1
      simp only [nPolls] at hrest
      simp [h1, hrest.2]
      omega
    · intro hstop
      by_cases hc : c.noCancel
      · have hcont := runCycle_cont_of_noCancel hc
        rw [runLoop_cons_of_cont rest hcont] at hstop
        simp only at hstop
        obtain ⟨x, hx, hnx⟩ := ih.2 hstop
        exact ⟨x, by simp [hx], hnx⟩
      · exact ⟨c, by simp, hc⟩

/-- Witness for C1: three consecutive cycles injecting a power-poll
exception, a sink-write exception, and a battery-poll exception; the loop
is still running after all three and has polled three times. -/
theorem c1_loop_survives_all_failures_witness :
    (∀ c ∈ ([⟨.exc, .exc, .exc, false, 0⟩,
              ⟨.ok ⟨some (mkRat 1 1), some (mkRat 2 1), some (mkRat 3 1),
                some (mkRat 4 1)⟩, .ok (mkRat 50 1), .exc, false, 1⟩,
              ⟨.ok ⟨some (mkRat 1 1), some (mkRat 2 1), some (mkRat 3 1),
                some (mkRat 4 1)⟩, .exc, .ok (), false, 2⟩] : List CycleF),
        c.noCancel) ∧
    ((runLoop [⟨.exc, .exc, .exc, false, 0⟩,
              ⟨.ok ⟨some (mkRat 1 1), some (mkRat 2 1), some (mkRat 3 1),
                some (mkRat 4 1)⟩, .ok (mkRat 50 1), .exc, false, 1⟩,
              ⟨.ok ⟨some (mkRat 1 1), some (mkRat 2 1), some (mkRat 3 1),
                some (mkRat 4 1)⟩, .exc, .ok (), false, 2⟩]).2 = false ∧
      nPolls (runLoop [⟨.exc, .exc, .exc, false, 0⟩,
              ⟨.ok ⟨some (mkRat 1 1), some (mkRat 2 1), some (mkRat 3 1),
                some (mkRat 4 1)⟩, .ok (mkRat 50 1), .exc, false, 1⟩,
              ⟨.ok ⟨some (mkRat 1 1), some (mkRat 2 1), some (mkRat 3 1),
                some (mkRat 4 1)⟩, .exc, .ok (), false, 2⟩]).1 = 3) :=
  ⟨by decide,
    (c1_loop_survives_all_failures _).1 (by decide)⟩

/-- C3: in a cycle whose power poll fails (source exception or malformed
response), the sink receives zero write calls, the battery poll is not
attempted, the failure is logged, and the loop proceeds directly to the
interval sleep and continues. -/
theorem c3_power_failure_skips_cycle (c : CycleF)
    (hfail : (get_measurements c.power).2 = .val none)
    (hsleep : c.sleepInt = false) :
    (runCycle c).1 = [.powerPoll, .logSourceErr, .sleep] ∧
    (runCycle c).2 = true ∧
    writesOf (runCycle c).1 = [] ∧
    (runCycle c).1.countP Ev.isBatteryPoll = 0 := by
  obtain ⟨pw, bt, sk, si, ts⟩ := c
  simp only at hfail hsleep
  subst hsleep
  cases pw with
  | ok d =>
    obtain ⟨s, b, so, l⟩ := d
    cases s <;> cases b <;> cases so <;> cases l <;>
      simp_all [runCycle, get_measurements, writesOf, Ev.isBatteryPoll]
  | exc =>
    simp_all [runCycle, get_measurements, writesOf, Ev.isBatteryPoll]
  | kbint => simp_all [get_measurements]

/-- Witness for C3: a cycle whose power poll raises. -/
theorem c3_power_failure_skips_cycle_witness :
    (get_measurements (CycleF.power ⟨.exc, .ok (mkRat 50 1), .ok (), false, 0⟩)).2
        = .val none ∧
    (runCycle ⟨.exc, .ok (mkRat 50 1), .ok (), false, 0⟩).1
        = [.powerPoll, .logSourceErr, .sleep] :=
  ⟨by decide,
    (c3_power_failure_skips_cycle ⟨.exc, .ok (mkRat 50 1), .ok (), false, 0⟩
      (by decide) rfl).1⟩

/-- C4: measurement normalization rounds each of the four fields
independently to the nearest integer (ties to even, applied uniformly)
and preserves sign; on the spec scenario input
`{site: 1500.4, battery: -300.5, solar: 800.6, home: 2000.0}` it yields
`{grid: 1500, battery: -300, solar: 801, home: 2000}` (the half value
`-300.5` goes to the even neighbour `-300`, one of the two outcomes the
claim admits). -/
theorem c4_normalization_rounds_to_nearest :
    (∀ q : ℚ, |(pyRound q : ℚ) - q| ≤ 1/2 ∧
      (0 ≤ q → 0 ≤ pyRound q) ∧ (q ≤ 0 → pyRound q ≤ 0)) ∧
    (mkRat 7502 5 : ℚ) = 1500.4 ∧
    (mkRat (-601) 2 : ℚ) = -300.5 ∧
    (mkRat 4003 5 : ℚ) = 800.6 ∧
    (mkRat 2000 1 : ℚ) = 2000.0 ∧
    get_measurements (.ok ⟨some (mkRat 7502 5), some (mkRat (-601) 2),
        some (mkRat 4003 5), some (mkRat 2000 1)⟩)
      = ([.powerPoll], .val (some ⟨1500, -300, 801, 2000⟩)) := by
  refine ⟨fun q => ⟨pyRound_nearest q, fun h => pyRound_nonneg h,
      fun h => pyRound_nonpos h⟩, ?_, ?_, ?_, ?_, by decide⟩ <;>
    norm_num [Rat.mkRat_eq_div]

/-- Witness for C4: the sign-preservation clauses applied at `87.6`
(positive) and `-300.5` (negative). -/
theorem c4_normalization_rounds_to_nearest_witness :
    ((0 : ℚ) ≤ mkRat 438 5 ∧ 0 ≤ pyRound (mkRat 438 5)) ∧
    ((mkRat (-601) 2 : ℚ) ≤ 0 ∧ pyRound (mkRat (-601) 2) ≤ 0) :=
  ⟨⟨by decide,
      (c4_normalization_rounds_to_nearest.1 (mkRat 438 5)).2.1 (by decide)⟩,
    ⟨by decide,
      (c4_normalization_rounds_to_nearest.1 (mkRat (-601) 2)).2.2 (by decide)⟩⟩

/-- C5: a cycle's Measurement is all-or-nothing: if any of the four
source fields is missing the cycle yields no Measurement at all (and such
a cycle writes nothing), and when a Measurement is produced all four
fields are populated from the source; a partial Measurement is never
emitted. -/
theorem c5_measurement_all_or_nothing :
    (∀ d : PowerData,
      ((d.site = none ∨ d.battery = none ∨ d.solar = none ∨ d.load = none) →
        (get_measurements (.ok d)).2 = .val none) ∧
      (∀ s b so l, d.site = some s → d.battery = some b →
        d.solar = some so → d.load = some l →
        (get_measurements (.ok d)).2 =
          .val (some ⟨pyRound s, pyRound b, pyRound so, pyRound l⟩))) ∧
    (∀ c : CycleF, (get_measurements c.power).2 = .val none →
      writesOf (runCycle c).1 = []) := by
  constructor
  · intro d
    obtain ⟨s, b, so, l⟩ := d
    constructor
    · intro h
      cases s <;> cases b <;> cases so <;> cases l <;>
        simp_all [get_measurements]
    · intro s' b' so' l' hs hb hso hl
      cases s <;> cases b <;> cases so <;> cases l <;>
        simp_all [get_measurements]
  · intro c hnone
    obtain ⟨pw, bt, sk, si, ts⟩ := c
    simp only at hnone
    cases pw with
    | ok d =>
      obtain ⟨s, b, so, l⟩ := d
      cases s <;> cases b <;> cases so <;> cases l <;> cases si <;>
        simp_all [runCycle, get_measurements, writesOf]
    | exc => cases si <;> simp_all [runCycle, get_measurements, writesOf]
    | kbint => simp_all [get_measurements]

/-- Witness for C5: a response missing the `solar` key yields no
Measurement, and a cycle with that response writes nothing. -/
theorem c5_measurement_all_or_nothing_witness :
    ((⟨some (mkRat 1 1), some (mkRat 2 1), none, some (mkRat 4 1)⟩ :
          PowerData).solar = none ∨ False) ∧
    (get_measurements (.ok ⟨some (mkRat 1 1), some (mkRat 2 1), none,
        some (mkRat 4 1)⟩)).2 = .val none :=
  ⟨Or.inl rfl,
    (c5_measurement_all_or_nothing.1
        ⟨some (mkRat 1 1), some (mkRat 2 1), none, some (mkRat 4 1)⟩).1
      (Or.inr (Or.inr (Or.inl rfl)))⟩

/-- C6: the battery level is passed through rounded to the nearest
integer with no clamping: `87.6` yields `88`, and out-of-range source
values such as `150.4` (above 100) and `-5.5` (below 0) are forwarded
rounded, not clamped into `[0, 100]`. -/
theorem c6_battery_level_rounded_not_clamped :
    (∀ q : ℚ, get_battery_level (.ok q)
        = ([.batteryPoll], .val (some (pyRound q)))) ∧
    (mkRat 438 5 : ℚ) = 87.6 ∧
    get_battery_level (.ok (mkRat 438 5)) = ([.batteryPoll], .val (some 88)) ∧
    (mkRat 752 5 : ℚ) = 150.4 ∧
    get_battery_level (.ok (mkRat 752 5)) = ([.batteryPoll], .val (some 150)) ∧
    ¬ (150 : ℤ) ≤ 100 ∧
    (mkRat (-11) 2 : ℚ) = -5.5 ∧
    get_battery_level (.ok (mkRat (-11) 2)) = ([.batteryPoll], .val (some (-6))) := by
  refine ⟨fun q => rfl, ?_, by decide, ?_, by decide, by decide, ?_, by decide⟩ <;>
    norm_num [Rat.mkRat_eq_div]

/-- C2: in a cycle whose power poll succeeds, exactly one sink write call
is issued: it carries the power series together with the battery series
holding that cycle's rounded level when the battery poll succeeds, and
the power series alone when the battery poll fails — a battery failure
never blocks the power write. -/
theorem c2_exactly_one_write (c : CycleF) (m : Measurement)
    (hm : (get_measurements c.power).2 = .val (some m))
    (hbt : c.battery ≠ .kbint) (hsk : c.sink ≠ .kbint) :
    (runCycle c).1.countP Ev.isSinkWrite = 1 ∧
    (∀ q, c.battery = .ok q →
      writesOf (runCycle c).1 = [[.power m, .battery (pyRound q)]]) ∧
    (c.battery = .exc → writesOf (runCycle c).1 = [[.power m]]) := by
  obtain ⟨pw, bt, sk, si, ts⟩ := c
  simp only at hm hbt hsk
  cases pw with
  | ok d =>
    obtain ⟨s, b, so, l⟩ := d
    cases s <;> cases b <;> cases so <;> cases l <;>
      cases bt <;> cases sk <;> cases si <;>
      simp_all [runCycle, get_measurements, write_to_influxdb,
        get_battery_level, writesOf, Ev.isSinkWrite]
  | exc => simp_all [get_measurements]
  | kbint => simp_all [get_measurements]

/-- Witness for C2: a cycle with a successful power poll and a failing
battery poll issues exactly one write, containing only the power series. -/
theorem c2_exactly_one_write_witness :
    writesOf (runCycle ⟨.ok ⟨some (mkRat 1 1), some (mkRat 2 1),
        some (mkRat 3 1), some (mkRat 4 1)⟩, .exc, .ok (), false, 0⟩).1
      = [[.power ⟨1, 2, 3, 4⟩]] :=
  (c2_exactly_one_write
      ⟨.ok ⟨some (mkRat 1 1), some (mkRat 2 1), some (mkRat 3 1),
        some (mkRat 4 1)⟩, .exc, .ok (), false, 0⟩
      ⟨1, 2, 3, 4⟩ (by decide) (by decide) (by decide)).2.2 rfl

/-- C7: when the sink write raises in a cycle, the failure is logged,
exactly one write was attempted (no retry and nothing queued — the rest
of the loop is `runLoop rest`, unchanged), the cycle still ends in the
interval sleep, and the next cycle's power poll is the very next event. -/
theorem c7_sink_failure_then_next_cycle (c : CycleF) (m : Measurement)
    (rest : List CycleF)
    (hm : (get_measurements c.power).2 = .val (some m))
    (hsk : c.sink = .exc) (hnc : c.noCancel) :
    Ev.logSinkErr ∈ (runCycle c).1 ∧
    (runCycle c).1.countP Ev.isSinkWrite = 1 ∧
    (runCycle c).1.getLast? = some .sleep ∧
    runLoop (c :: rest) = ((runCycle c).1 ++ (runLoop rest).1, (runLoop rest).2) ∧
    (∀ c2 rest2, rest = c2 :: rest2 →
      ∃ t, (runLoop (c :: rest)).1 = (runCycle c).1 ++ Ev.powerPoll :: t) := by
  have hcont := runCycle_cont_of_noCancel hnc
  have hloop := runLoop_cons_of_cont rest hcont
  refine ⟨?_, ?_, ?_, hloop, ?_⟩
  · obtain ⟨h1, h2, h3, h4⟩ := hnc
    obtain ⟨pw, bt, sk, si, ts⟩ := c
    simp only at hm hsk h1 h2 h3 h4
    subst hsk h4
    cases pw with
    | ok d =>
      obtain ⟨s, b, so, l⟩ := d
      cases s <;> cases b <;> cases so <;> cases l <;> cases bt <;>
        simp_all [runCycle, get_measurements, write_to_influxdb,
          get_battery_level]
    | exc => simp_all [get_measurements]
    | kbint => simp_all [get_measurements]
  · obtain ⟨h1, h2, h3, h4⟩ := hnc
    obtain ⟨pw, bt, sk, si, ts⟩ := c
    simp only at hm hsk h1 h2 h3 h4
    subst hsk h4
    cases pw with
    | ok d =>
      obtain ⟨s, b, so, l⟩ := d
      cases s <;> cases b <;> cases so <;> cases l <;> cases bt <;>
        simp_all [runCycle, get_measurements, write_to_influxdb,
          get_battery_level, Ev.isSinkWrite]
    | exc => simp_all [get_measurements]
    | kbint => simp_all [get_measurements]
  · obtain ⟨h1, h2, h3, h4⟩ := hnc
    obtain ⟨pw, bt, sk, si, ts⟩ := c
    simp only at hm hsk h1 h2 h3 h4
    subst hsk h4
    cases pw with
    | ok d =>
      obtain ⟨s, b, so, l⟩ := d
      cases s <;> cases b <;> cases so <;> cases l <;> cases bt <;>
        simp_all [runCycle, get_measurements, write_to_influxdb,
          get_battery_level]
    | exc => simp_all [get_measurements]
    | kbint => simp_all [get_measurements]
  · intro c2 rest2 hrest
    subst hrest
    obtain ⟨t2, ht2⟩ := runCycle_starts_powerPoll c2
    rw [hloop]
    by_cases h2 : (runCycle c2).2 = true
    · rw [runLoop_cons_of_cont rest2 h2]
      exact ⟨t2 ++ (runLoop rest2).1, by simp [ht2]⟩
    · rw [runLoop_cons_of_stop rest2 (by simpa using h2)]
      exact ⟨t2, by simp [ht2]⟩

/-- Witness for C7: a sink failure in the first of two cycles; its trace
ends in the sleep and the second cycle's poll follows. -/
theorem c7_sink_failure_then_next_cycle_witness :
    Ev.logSinkErr ∈ (runCycle ⟨.ok ⟨some (mkRat 1 1), some (mkRat 2 1),
        some (mkRat 3 1), some (mkRat 4 1)⟩, .ok (mkRat 50 1), .exc,
        false, 0⟩).1 :=
  (c7_sink_failure_then_next_cycle
      ⟨.ok ⟨some (mkRat 1 1), some (mkRat 2 1), some (mkRat 3 1),
        some (mkRat 4 1)⟩, .ok (mkRat 50 1), .exc, false, 0⟩
      ⟨1, 2, 3, 4⟩ [⟨.exc, .exc, .exc, false, 1⟩]
      (by decide) rfl (by decide)).1

/-- C8: when the cancellation signal arrives during the interval sleep of
a cycle (and nowhere else), the loop breaks out of that very cycle: the
whole remaining trace is that cycle's trace, it contains exactly the one
power poll already performed (no further poll), and it ends in the
stopping log — the signal is never swallowed. -/
theorem c8_cancel_during_sleep (c : CycleF) (rest : List CycleF)
    (hsi : c.sleepInt = true) (hpw : c.power ≠ .kbint)
    (hbt : c.battery ≠ .kbint) (hsk : c.sink ≠ .kbint) :
    (runCycle c).2 = false ∧
    runLoop (c :: rest) = ((runCycle c).1, true) ∧
    nPolls (runLoop (c :: rest)).1 = 1 ∧
    (runLoop (c :: rest)).1.getLast? = some .logStopping := by
  have hstop : (runCycle c).2 = false := by
    obtain ⟨pw, bt, sk, si, ts⟩ := c
    simp only at hsi hpw hbt hsk
    subst hsi
    cases pw with
    | ok d =>
      obtain ⟨s, b, so, l⟩ := d
      cases s <;> cases b <;> cases so <;> cases l <;>
        cases bt <;> cases sk <;>
        simp_all [runCycle, get_measurements, write_to_influxdb,
          get_battery_level]
    | exc => simp_all [runCycle, get_measurements]
    | kbint => simp_all
  have hloop := runLoop_cons_of_stop rest hstop
  refine ⟨hstop, hloop, ?_, ?_⟩
  · rw [hloop]
    exact runCycle_nPolls c
  · rw [hloop]
    obtain ⟨pw, bt, sk, si, ts⟩ := c
    simp only at hsi hpw hbt hsk
    subst hsi
    cases pw with
    | ok d =>
      obtain ⟨s, b, so, l⟩ := d
      cases s <;> cases b <;> cases so <;> cases l <;>
        cases bt <;> cases sk <;>
        simp_all [runCycle, get_measurements, write_to_influxdb,
          get_battery_level]
    | exc => simp_all [runCycle, get_measurements]
    | kbint => simp_all

/-- Witness for C8: a fully successful cycle whose sleep is interrupted;
the loop stops with exactly one poll performed. -/
theorem c8_cancel_during_sleep_witness :
    runLoop [⟨.ok ⟨some (mkRat 1 1), some (mkRat 2 1), some (mkRat 3 1),
        some (mkRat 4 1)⟩, .ok (mkRat 50 1), .ok (), true, 0⟩,
      ⟨.exc, .exc, .exc, false, 1⟩]
      = ((runCycle ⟨.ok ⟨some (mkRat 1 1), some (mkRat 2 1), some (mkRat 3 1),
          some (mkRat 4 1)⟩, .ok (mkRat 50 1), .ok (), true, 0⟩).1, true) :=
  (c8_cancel_during_sleep
      ⟨.ok ⟨some (mkRat 1 1), some (mkRat 2 1), some (mkRat 3 1),
        some (mkRat 4 1)⟩, .ok (mkRat 50 1), .ok (), true, 0⟩
      [⟨.exc, .exc, .exc, false, 1⟩]
      rfl (by decide) (by decide) (by decide)).2.1

/-- C9 counterexample: the claim classifies a cycle whose sink write
fails as a failed cycle, with the per-cycle success log line reserved for
successful cycles; but in the code `run` prints the
"Measurements recorded" line whenever the power poll succeeded, even when
`write_to_influxdb` just logged a sink-write failure — this concrete
cycle's trace contains both the sink-failure line and the success line. -/
theorem c9_success_line_despite_sink_failure :
    Ev.logSinkErr ∈ (runCycle ⟨.ok ⟨some (mkRat 100 1), some (mkRat 200 1),
        some (mkRat 300 1), some (mkRat 400 1)⟩, .ok (mkRat 50 1), .exc,
        false, 7⟩).1 ∧
    Ev.logRecorded 7 ⟨100, 200, 300, 400⟩ ∈
      (runCycle ⟨.ok ⟨some (mkRat 100 1), some (mkRat 200 1),
        some (mkRat 300 1), some (mkRat 400 1)⟩, .ok (mkRat 50 1), .exc,
        false, 7⟩).1 := by
  constructor <;> decide

/-- C9 (amended): in every cancellation-free cycle the loop emits the
success log line (timestamp plus the four Measurement fields) exactly
when the power poll succeeds — including cycles whose sink write fails —
and each failure category has its own distinct log line (source-read,
battery-read, sink-write). -/
theorem c9_log_lines (c : CycleF) (m : Measurement) (hnc : c.noCancel) :
    ((get_measurements c.power).2 = .val (some m) →
      Ev.logRecorded c.ts m ∈ (runCycle c).1) ∧
    ((get_measurements c.power).2 = .val none →
      Ev.logSourceErr ∈ (runCycle c).1 ∧
        Ev.logRecorded c.ts m ∉ (runCycle c).1) ∧
    ((get_measurements c.power).2 = .val (some m) → c.battery = .exc →
      Ev.logBatteryErr ∈ (runCycle c).1) ∧
    ((get_measurements c.power).2 = .val (some m) → c.sink = .exc →
      Ev.logSinkErr ∈ (runCycle c).1) := by
  obtain ⟨h1, h2, h3, h4⟩ := hnc
  obtain ⟨pw, bt, sk, si, ts⟩ := c
  simp only at h1 h2 h3 h4 ⊢
  subst h4
  cases pw with
  | ok d =>
    obtain ⟨s, b, so, l⟩ := d
    cases s <;> cases b <;> cases so <;> cases l <;>
      cases bt <;> cases sk <;>
      simp_all [runCycle, get_measurements, write_to_influxdb,
        get_battery_level]
  | exc =>
    simp_all [runCycle, get_measurements]
  | kbint => simp_all

/-- Witness for C9 (amended): a cycle with a failing sink write still
logs the success line, and logs the sink-failure line. -/
theorem c9_log_lines_witness :
    Ev.logRecorded 7 ⟨100, 200, 300, 400⟩ ∈
      (runCycle ⟨.ok ⟨some (mkRat 100 1), some (mkRat 200 1),
        some (mkRat 300 1), some (mkRat 400 1)⟩, .ok (mkRat 50 1), .exc,
        false, 7⟩).1 :=
  (c9_log_lines
      ⟨.ok ⟨some (mkRat 100 1), some (mkRat 200 1), some (mkRat 300 1),
        some (mkRat 400 1)⟩, .ok (mkRat 50 1), .exc, false, 7⟩
      ⟨100, 200, 300, 400⟩ (by decide)).1 (by decide)

/-- C10: in every cancellation-free cycle whose power poll succeeds, the
battery poll happens exactly once and strictly before the single sink
write call; and the rest of the loop is `runLoop` of the remaining
inputs alone, so nothing of this cycle (measurement or battery reading)
is carried into a later cycle. -/
theorem c10_battery_polled_once_before_write (c : CycleF) (m : Measurement)
    (hm : (get_measurements c.power).2 = .val (some m))
    (hnc : c.noCancel) :
    (runCycle c).1.countP Ev.isBatteryPoll = 1 ∧
    (runCycle c).1.countP Ev.isSinkWrite = 1 ∧
    (runCycle c).1.findIdx Ev.isBatteryPoll <
      (runCycle c).1.findIdx Ev.isSinkWrite ∧
    (∀ cs : List CycleF,
      runLoop (c :: cs) = ((runCycle c).1 ++ (runLoop cs).1, (runLoop cs).2)) := by
  have hcont := runCycle_cont_of_noCancel hnc
  refine ⟨?_, ?_, ?_, fun cs => runLoop_cons_of_cont cs hcont⟩ <;>
  · obtain ⟨h1, h2, h3, h4⟩ := hnc
    obtain ⟨pw, bt, sk, si, ts⟩ := c
    simp only at hm h1 h2 h3 h4
    subst h4
    cases pw with
    | ok d =>
      obtain ⟨s, b, so, l⟩ := d
      cases s <;> cases b <;> cases so <;> cases l <;>
        cases bt <;> cases sk <;>
        simp_all [runCycle, get_measurements, write_to_influxdb,
          get_battery_level, Ev.isBatteryPoll, Ev.isSinkWrite,
          List.findIdx_cons]
    | exc => simp_all [get_measurements]
    | kbint => simp_all [get_measurements]

/-- Witness for C10: a fully successful cycle polls the battery once,
before its single write. -/
theorem c10_battery_polled_once_before_write_witness :
    (runCycle ⟨.ok ⟨some (mkRat 1 1), some (mkRat 2 1), some (mkRat 3 1),
        some (mkRat 4 1)⟩, .ok (mkRat 50 1), .ok (), false, 0⟩).1.countP
      Ev.isBatteryPoll = 1 :=
  (c10_battery_polled_once_before_write
      ⟨.ok ⟨some (mkRat 1 1), some (mkRat 2 1), some (mkRat 3 1),
        some (mkRat 4 1)⟩, .ok (mkRat 50 1), .ok (), false, 0⟩
      ⟨1, 2, 3, 4⟩ (by decide) (by decide)).1

end Powerwall
